import Mathlib

/-!
Verification development for the FedVision cluster worker
(`fedvision/framework/cluster/worker.py`) and the extension registry
(`fedvision/framework/extensions/_extensions.py`).

The worker is an asyncio program.  We embed it shallowly: each coroutine
becomes a Lean function over an explicit state, the cooperative
interleaving of the event loop becomes a list of scheduling events, and
external effects (the gRPC stream, RPC outcomes, task execution results)
become oracle inputs.  Queues are FIFO lists; `asyncio.Semaphore` is a
natural-number permit count; `asyncio.Event` is a boolean.
-/

/-- Statuses of `cluster_pb2.Enroll.REP.status` as consumed by the worker:
`ALREADY_ENROLL`, `ENROLL_SUCCESS`, `TASK_READY`, and any other wire value. -/
inductive EnrollStatus
  | ALREADY_ENROLL
  | ENROLL_SUCCESS
  | TASK_READY
  | other (n : Nat)
deriving DecidableEq, Repr

/-- Statuses carried in `cluster_pb2.UpdateStatus.REQ.task_status`. -/
inductive TaskStatusCode
  | TASK_FINISH
  | TASK_EXCEPTION
deriving DecidableEq, Repr

/-- A task as delivered on the wire and deserialized by the extension
factory.  `decodeOk` is the oracle for whether `task_class.deserialize`
succeeds (the factory lives outside the worker module). -/
structure WTask where
  job_id : String
  task_id : String
  task_type : String
  payload : Nat
  decodeOk : Bool
deriving DecidableEq, Repr

/-- A `cluster_pb2.UpdateStatus.REQ` protobuf message.  Unset protobuf
fields are modelled as `none`; a pure heartbeat request sets only
`worker_id`. -/
structure UpdateStatusREQ where
  worker_id : String
  job_id : Option String
  task_id : Option String
  task_status : Option TaskStatusCode
  exec_result : Option String
  exc_text : Option String
deriving DecidableEq, Repr

/-- The synthetic heartbeat request built on a status-queue timeout:
`cluster_pb2.UpdateStatus.REQ(worker_id=self._worker_id)`. -/
def heartbeatREQ (wid : String) : UpdateStatusREQ :=
  ⟨wid, none, none, none, none, none⟩

/-- The `TASK_FINISH` status update built after a successful execution
(worker.py lines 205-213). -/
def taskFinishREQ (wid : String) (t : WTask) (response : String) : UpdateStatusREQ :=
  ⟨wid, some t.job_id, some t.task_id, some .TASK_FINISH, some response, none⟩

/-- The `TASK_EXCEPTION` status update built when execution raises
(worker.py lines 221-229); `msg` is `str(e)`. -/
def taskExceptionREQ (wid : String) (t : WTask) (msg : String) : UpdateStatusREQ :=
  ⟨wid, some t.job_id, some t.task_id, some .TASK_EXCEPTION, none, some msg⟩

/-- Exceptions observable at the boundaries of the worker module. -/
inductive PyError
  | fedvisionWorker (msg : String)
  | fedvisionExtension (msg : String)
  | aioRpc (msg : String)
  | generic (msg : String)
deriving DecidableEq, Repr

/-- Outcome of `await _task.exec(executor)` (together with the executor
construction preceding it): a normal return with a result payload, a
raised `Exception` with its `str`, or cancellation of the surrounding
asyncio task (`CancelledError`, a `BaseException` that the
`except Exception` clause does not catch, while `finally` still runs). -/
inductive ExecResult
  | ok (response : String)
  | raises (msg : String)
  | cancelled
deriving DecidableEq, Repr

/-- Observable effects of one run of `ClusterWorker._task_exec_coroutine`. -/
structure ExecEffects where
  statusPuts : List UpdateStatusREQ
  semReleases : Nat
  stopEventSet : Bool
  raised : Option PyError
  endedCancelled : Bool
deriving DecidableEq, Repr

/-- Status updates put on `self._task_status` by the `try`/`except Exception`
blocks of `_task_exec_coroutine` (worker.py lines 192-229): a `TASK_FINISH`
report on normal return, a `TASK_EXCEPTION` report when execution raises,
and nothing on cancellation (`CancelledError` skips the `except` clause). -/
def task_exec_reported (wid : String) (t : WTask) (r : ExecResult) : List UpdateStatusREQ :=
  match r with
  | .ok response => [taskFinishREQ wid t response]
  | .raises msg => [taskExceptionREQ wid t msg]
  | .cancelled => []

/-- One run of `ClusterWorker._task_exec_coroutine` (worker.py lines
191-235): the `try`/`except` blocks produce the status puts, and the
`finally` block performs exactly one `self._semaphore.release()` on every
exit path.  The coroutine never touches `self._stop_event` and never lets
an `Exception` escape. -/
def task_exec_coroutine (wid : String) (t : WTask) (r : ExecResult) : ExecEffects :=
  { statusPuts := task_exec_reported wid t r
    semReleases := 1
    stopEventSet := false
    raised := none
    endedCancelled := r = ExecResult.cancelled }

/-- State shared by `_co_task_execute_loop`, the spawned executions and the
stream handler: the semaphore's available permits, the inbound task queue,
whether the loop holds a permit it has not yet turned into a spawn, and the
number of spawned, unfinished executions. -/
structure SchedState where
  semValue : Nat
  taskQueue : List WTask
  holding : Bool
  inflight : Nat
deriving DecidableEq, Repr

/-- State after `ClusterWorker.__init__`: `asyncio.Semaphore(max_tasks)`
full, empty queue, scheduler idle, nothing in flight. -/
def initSchedState (maxTasks : Nat) : SchedState :=
  ⟨maxTasks, [], false, 0⟩

/-- Cooperative scheduling events touching the semaphore and the inbound
queue: the stream handler's `await self._task_queue.put(task)`; the
execute loop's `await self._semaphore.acquire()` completing (only possible
with a free permit and when the loop is not already past its acquire); the
loop's `await self._task_queue.get()` completing followed by
`asyncio.create_task(self._task_exec_coroutine(...))`; and a spawned
execution reaching its `finally` with result `r`. -/
inductive SchedEvent
  | deliver (t : WTask)
  | acquire
  | popSpawn
  | finish (t : WTask) (r : ExecResult)
deriving DecidableEq, Repr

/-- Small-step transition of the execute loop and its spawned executions
(worker.py lines 237-249 together with 191-235).  A step whose suspension
cannot complete (no permit, empty queue, nothing in flight) leaves the
state unchanged. -/
def schedStep (wid : String) (s : SchedState) (e : SchedEvent) : SchedState :=
  match e with
  | .deliver t => { s with taskQueue := s.taskQueue ++ [t] }
  | .acquire =>
      if s.holding = false ∧ 0 < s.semValue then
        { s with semValue := s.semValue - 1, holding := true }
      else s
  | .popSpawn =>
      match s.taskQueue with
      | [] => s
      | _t :: rest =>
          if s.holding = true then
            { s with taskQueue := rest, holding := false, inflight := s.inflight + 1 }
          else s
  | .finish t r =>
      if 0 < s.inflight then
        { s with inflight := s.inflight - 1,
                 semValue := s.semValue + (task_exec_coroutine wid t r).semReleases }
      else s

/-- Run of the execute loop under a cooperative schedule. -/
def runSched (wid : String) (s : SchedState) (events : List SchedEvent) : SchedState :=
  events.foldl (schedStep wid) s

/-- Permits are conserved: free permits, plus the permit held between
`acquire` and spawn, plus one permit per in-flight execution. -/
def schedMeasure (s : SchedState) : Nat :=
  s.semValue + (if s.holding then 1 else 0) + s.inflight

theorem semReleases_one (wid : String) (t : WTask) (r : ExecResult) :
    (task_exec_coroutine wid t r).semReleases = 1 := rfl

theorem schedStep_measure (wid : String) (s : SchedState) (e : SchedEvent) :
    schedMeasure (schedStep wid s e) = schedMeasure s := by
  cases e with
  | deliver t => simp [schedStep, schedMeasure]
  | acquire =>
      simp only [schedStep]
      split
      · rename_i h
        simp [schedMeasure, h.1]
        omega
      · rfl
  | popSpawn =>
      simp only [schedStep]
      split
      · rfl
      · split
        · rename_i h
          simp [schedMeasure, h]
          omega
        · rfl
  | finish t r =>
      simp only [schedStep]
      split
      · rename_i h
        simp [schedMeasure, semReleases_one]
        omega
      · rfl

theorem runSched_measure (wid : String) (s : SchedState) (events : List SchedEvent) :
    schedMeasure (runSched wid s events) = schedMeasure s := by
  induction events generalizing s with
  | nil => rfl
  | cons e es ih =>
      simp only [runSched, List.foldl_cons] at *
      rw [ih (schedStep wid s e), schedStep_measure]

/-- Claim C1: for every execution history of the worker runtime, the number
of concurrently in-flight task executions (spawned by the execute loop and
not yet completed) never exceeds `max_tasks`, the capacity given at
construction, enforced by the semaphore acquired before each task is
popped and released when its execution ends. -/
theorem inflight_never_exceeds_max_tasks (wid : String) (maxTasks : Nat)
    (events : List SchedEvent) :
    (runSched wid (initSchedState maxTasks) events).inflight ≤ maxTasks := by
  have h := runSched_measure wid (initSchedState maxTasks) events
  have h0 : schedMeasure (initSchedState maxTasks) = maxTasks := by
    simp [initSchedState, schedMeasure]
  rw [h0] at h
  unfold schedMeasure at h
  split at h <;> omega

/-- Claim C3: on every exit path of a spawned task execution — normal
completion, an exception raised during execution, or cancellation — the
capacity semaphore permit is released exactly once; hence whenever a run
returns the scheduler to a state with the same number of in-flight
executions and the same held-permit flag, the free permit count is exactly
what it was before. -/
theorem permit_released_exactly_once :
    (∀ wid t r, (task_exec_coroutine wid t r).semReleases = 1) ∧
    (∀ (wid : String) (s : SchedState) (events : List SchedEvent),
      (runSched wid s events).inflight = s.inflight →
      (runSched wid s events).holding = s.holding →
      (runSched wid s events).semValue = s.semValue) := by
  constructor
  · exact fun wid t r => rfl
  · intro wid s events h1 h2
    have h := runSched_measure wid s events
    simp only [schedMeasure, h1, h2] at h
    omega

/-- Demonstration task used by concrete witnesses. -/
def demoTask : WTask :=
  ⟨"job_1", "task_1", "demo_type", 0, true⟩

theorem permit_released_exactly_once_witness :
    (runSched "w" (initSchedState 2)
        [.deliver demoTask, .acquire, .popSpawn, .finish demoTask (.ok "r")]).semValue
      = (initSchedState 2).semValue :=
  permit_released_exactly_once.2 "w" (initSchedState 2)
    [.deliver demoTask, .acquire, .popSpawn, .finish demoTask (.ok "r")]
    (by decide) (by decide)

/-- Claim C4: every executed task enqueues exactly one outcome on the
status queue — a `TASK_FINISH` report with the result payload when
execution returns, a `TASK_EXCEPTION` report with the stringified error
when it raises — and an exception during a task's own execution is never
fatal to the runtime: the coroutine never sets the stop event, never lets
an exception escape, and touches nothing beyond its own status report and
permit release. -/
theorem one_outcome_per_execution :
    (∀ wid t response, (task_exec_coroutine wid t (.ok response)).statusPuts
        = [taskFinishREQ wid t response]) ∧
    (∀ wid t msg, (task_exec_coroutine wid t (.raises msg)).statusPuts
        = [taskExceptionREQ wid t msg]) ∧
    (∀ wid t r, (task_exec_coroutine wid t r).statusPuts.length ≤ 1) ∧
    (∀ wid t r, (task_exec_coroutine wid t r).stopEventSet = false ∧
        (task_exec_coroutine wid t r).raised = none) := by
  refine ⟨fun wid t response => rfl, fun wid t msg => rfl, fun wid t r => ?_,
    fun wid t r => ⟨rfl, rfl⟩⟩
  cases r <;> simp [task_exec_coroutine, task_exec_reported]

/-- A `cluster_pb2.Enroll.REP` message: a status and the (always present)
embedded task message. -/
structure EnrollREP where
  status : EnrollStatus
  task : WTask
deriving DecidableEq, Repr

/-- One observation on the enroll response stream: either the next
response message, or the stream raising `grpc.aio.AioRpcError`. -/
inductive StreamEvent
  | rep (r : EnrollREP)
  | transportFailure
deriving DecidableEq, Repr

/-- Rendering of an enroll status into the f-string messages of
`ClusterWorker.start`. -/
def statusText : EnrollStatus → String
  | .ALREADY_ENROLL => "ALREADY_ENROLL"
  | .ENROLL_SUCCESS => "ENROLL_SUCCESS"
  | .TASK_READY => "TASK_READY"
  | .other n => toString n

/-- Message of the `FedvisionWorkerException` raised on a duplicate
enrollment (worker.py line 86). -/
def alreadyEnrolledMsg (wid : String) : String :=
  "worker<" ++ wid ++ "> already enrolled, use new name or remove it from manager"

/-- Message of the `FedvisionWorkerException` raised on an unexpected
first-response status (worker.py line 91). -/
def unknownStatusMsg (wid : String) (st : EnrollStatus) : String :=
  "worker<" ++ wid ++ ">enroll failed with unknown status: " ++ statusText st

/-- Message of the `FedvisionWorkerException` raised on a non-`TASK_READY`
delivery status (worker.py line 144). -/
def expectTaskReadyMsg (st : EnrollStatus) : String :=
  "expect status " ++ statusText EnrollStatus.TASK_READY ++ ", got " ++ statusText st

/-- The inner `try` of the fetch-tasks block (worker.py lines 151-166):
look up the task class in the registry (`none` raises a
`FedvisionExtensionException` caught by the `except FedvisionException`
clause), deserialize (a failure is caught by `except Exception`), and on
success hand the task to `self._task_queue.put`.  The result is the task
to enqueue, or `none` when the failure was recoverable and merely
logged. -/
def processTaskReady (knownTypes : List String) (r : EnrollREP) : Option WTask :=
  if knownTypes.contains r.task.task_type && r.task.decodeOk then some r.task else none

/-- Observable outcome of consuming the rest of the enroll stream after a
successful first response. -/
structure ConsumeResult where
  enqueued : List WTask
  raised : Option PyError
  stopEventSet : Bool
deriving DecidableEq, Repr

/-- The post-enrollment part of the `async for` in `ClusterWorker.start`
(worker.py lines 142-169): a transport failure is caught by the
`except grpc.aio.AioRpcError` clause which sets the stop event; a
non-`TASK_READY` status raises a `FedvisionWorkerException` that no clause
catches; a recoverable per-task failure is logged and the loop continues;
a decoded task is enqueued in arrival order. -/
def consumeRest (wid : String) (knownTypes : List String) : List StreamEvent → ConsumeResult
  | [] => ⟨[], none, false⟩
  | .transportFailure :: _ => ⟨[], none, true⟩
  | .rep r :: rest =>
      if r.status = EnrollStatus.TASK_READY then
        match processTaskReady knownTypes r with
        | some t =>
            let c := consumeRest wid knownTypes rest
            ⟨t :: c.enqueued, c.raised, c.stopEventSet⟩
        | none => consumeRest wid knownTypes rest
      else
        ⟨[], some (.fedvisionWorker (expectTaskReadyMsg r.status)), false⟩

/-- Observable outcome of one call of `ClusterWorker.start`. -/
structure StartResult where
  stopEventSet : Bool
  raised : Option PyError
  loopsStarted : Bool
  enqueued : List WTask
deriving DecidableEq, Repr

/-- The body of `ClusterWorker.start` (worker.py lines 52-169) as a
function of the enroll stream: the first response drives the enrollment
branch (worker.py lines 84-140) — `ALREADY_ENROLL` and any non-success
status raise a `FedvisionWorkerException` that the surrounding
`except grpc.aio.AioRpcError` clause does not catch, while
`ENROLL_SUCCESS` spawns the heartbeat and task-execute loops — and the
remaining responses are consumed by `consumeRest`. -/
def workerStart (wid : String) (knownTypes : List String)
    (events : List StreamEvent) : StartResult :=
  match events with
  | [] => ⟨false, none, false, []⟩
  | .transportFailure :: _ => ⟨true, none, false, []⟩
  | .rep first :: rest =>
      if first.status = EnrollStatus.ALREADY_ENROLL then
        ⟨false, some (.fedvisionWorker (alreadyEnrolledMsg wid)), false, []⟩
      else if first.status ≠ EnrollStatus.ENROLL_SUCCESS then
        ⟨false, some (.fedvisionWorker (unknownStatusMsg wid first.status)), false, []⟩
      else
        let c := consumeRest wid knownTypes rest
        ⟨c.stopEventSet, c.raised, true, c.enqueued⟩

/-- The worker's heartbeat interval: `self._heartbeat_interval = 1`. -/
def heartbeat_interval : Nat := 1

/-- Outcome of one `await self._stub.UpdateTaskStatus(request)` call. -/
inductive RpcOutcome
  | success
  | nonSuccess
  | transportFailure
deriving DecidableEq, Repr

/-- One tick of the status-reporter loop: the status updates put on
`self._task_status` before this tick's `heartbeat_interval` deadline, and
the outcome of the tick's RPC call. -/
structure ReporterTick where
  arrivals : List UpdateStatusREQ
  rpc : RpcOutcome
deriving DecidableEq, Repr

/-- State of `_co_update_status`: the pending FIFO status queue, the stop
event, and whether the coroutine has returned. -/
structure ReporterState where
  queue : List UpdateStatusREQ
  stopEventSet : Bool
  terminated : Bool
deriving DecidableEq, Repr

/-- A request attempted on the `UpdateTaskStatus` RPC, tagged with the
branch that produced it: a real dequeued update, or the synthetic
heartbeat built in the `except asyncio.TimeoutError` clause. -/
inductive SentREQ
  | real (r : UpdateStatusREQ)
  | heartbeat (r : UpdateStatusREQ)
deriving DecidableEq, Repr

/-- One iteration of the `while True` loop of `_co_update_status`
(worker.py lines 98-126): `asyncio.wait_for(self._task_status.get(),
self._heartbeat_interval)` yields the FIFO head if any update is pending
within the interval and otherwise raises `TimeoutError`, in which case a
heartbeat request is built; the request is then sent — an
`AioRpcError` sets the stop event and returns from the coroutine, a
non-success response status is only logged.  A terminated coroutine
processes nothing, while puts from executions still land on the queue. -/
def reporterTick (wid : String) (s : ReporterState) (t : ReporterTick) :
    ReporterState × Option SentREQ :=
  if s.terminated then
    ({ s with queue := s.queue ++ t.arrivals }, none)
  else
    match s.queue ++ t.arrivals with
    | [] =>
        match t.rpc with
        | .transportFailure =>
            ({ s with stopEventSet := true, terminated := true },
              some (.heartbeat (heartbeatREQ wid)))
        | _ => (s, some (.heartbeat (heartbeatREQ wid)))
    | r :: rest =>
        match t.rpc with
        | .transportFailure =>
            ({ s with queue := rest, stopEventSet := true, terminated := true },
              some (.real r))
        | _ => ({ s with queue := rest }, some (.real r))

/-- Run of the status-reporter loop over a schedule of ticks, collecting
the attempted RPC requests in order. -/
def runReporter (wid : String) (s : ReporterState) :
    List ReporterTick → ReporterState × List SentREQ
  | [] => (s, [])
  | t :: ts =>
      let p := reporterTick wid s t
      let q := runReporter wid p.1 ts
      (q.1, p.2.toList ++ q.2)

/-- The real (dequeued) status updates of a sent trace, in order. -/
def realsOf : List SentREQ → List UpdateStatusREQ
  | [] => []
  | .real r :: rest => r :: realsOf rest
  | .heartbeat _ :: rest => realsOf rest

/-- All status updates enqueued during a schedule, in enqueue order. -/
def allArrivals (ts : List ReporterTick) : List UpdateStatusREQ :=
  ts.foldr (fun t acc => t.arrivals ++ acc) []

theorem realsOf_append (a b : List SentREQ) :
    realsOf (a ++ b) = realsOf a ++ realsOf b := by
  induction a with
  | nil => rfl
  | cons x xs ih => cases x <;> simp [realsOf, ih]

theorem reporterTick_conserves (wid : String) (s : ReporterState) (t : ReporterTick) :
    realsOf (reporterTick wid s t).2.toList ++ (reporterTick wid s t).1.queue
      = s.queue ++ t.arrivals := by
  unfold reporterTick
  split
  · simp [realsOf]
  · cases hq : s.queue ++ t.arrivals with
    | nil =>
        obtain ⟨h1, h2⟩ := List.append_eq_nil.mp hq
        cases t.rpc <;> simp [hq, realsOf, h1]
    | cons r rest => cases t.rpc <;> simp [hq, realsOf]

theorem runReporter_conserves (wid : String) (s : ReporterState)
    (ts : List ReporterTick) :
    realsOf (runReporter wid s ts).2 ++ (runReporter wid s ts).1.queue
      = s.queue ++ allArrivals ts := by
  induction ts generalizing s with
  | nil => simp [runReporter, realsOf, allArrivals]
  | cons t ts ih =>
      have h1 := reporterTick_conserves wid s t
      have h2 := ih (reporterTick wid s t).1
      have harr : allArrivals (t :: ts) = t.arrivals ++ allArrivals ts := rfl
      simp only [runReporter, realsOf_append, harr]
      rw [List.append_assoc, h2, ← List.append_assoc, h1, List.append_assoc]

theorem reporterTick_heartbeat_iff (wid : String) (s : ReporterState)
    (t : ReporterTick) :
    (reporterTick wid s t).2 = some (SentREQ.heartbeat (heartbeatREQ wid)) ↔
      (s.terminated = false ∧ s.queue ++ t.arrivals = []) := by
  unfold reporterTick
  split
  · rename_i h
    simp [h]
  · rename_i h
    rw [Bool.not_eq_true] at h
    cases hq : s.queue ++ t.arrivals with
    | nil => cases t.rpc <;> simp [hq, h]
    | cons r rest => cases t.rpc <;> simp [hq, h]

theorem reporterTick_real (wid : String) (s : ReporterState) (t : ReporterTick)
    (r : UpdateStatusREQ) (rest : List UpdateStatusREQ)
    (hterm : s.terminated = false) (hq : s.queue ++ t.arrivals = r :: rest) :
    (reporterTick wid s t).2 = some (SentREQ.real r) ∧
      (reporterTick wid s t).1.queue = rest := by
  unfold reporterTick
  rw [hterm, hq]
  cases t.rpc <;> simp

/-- Claim C5: per tick the status reporter waits at most
`heartbeat_interval` for a queued status update; every status update is
transmitted as-is in enqueue order (whatever has not been sent is still
pending in FIFO order), a heartbeat carrying only the worker identity is
attempted exactly when no update was available within the interval, and a
dequeued update is sent unchanged with the rest of the queue intact. -/
theorem status_reporter_contract :
    (∀ (wid : String) (s : ReporterState) (ts : List ReporterTick),
        realsOf (runReporter wid s ts).2 ++ (runReporter wid s ts).1.queue
          = s.queue ++ allArrivals ts) ∧
    (∀ (wid : String) (s : ReporterState) (t : ReporterTick),
        (reporterTick wid s t).2 = some (SentREQ.heartbeat (heartbeatREQ wid)) ↔
          (s.terminated = false ∧ s.queue ++ t.arrivals = [])) ∧
    (∀ (wid : String) (s : ReporterState) (t : ReporterTick) r rest,
        s.terminated = false → s.queue ++ t.arrivals = r :: rest →
        (reporterTick wid s t).2 = some (SentREQ.real r) ∧
          (reporterTick wid s t).1.queue = rest) :=
  ⟨runReporter_conserves, reporterTick_heartbeat_iff, reporterTick_real⟩

theorem status_reporter_contract_witness :
    (reporterTick "w" ⟨[], false, false⟩
        ⟨[taskFinishREQ "w" demoTask "res"], RpcOutcome.success⟩).2
      = some (SentREQ.real (taskFinishREQ "w" demoTask "res")) :=
  (status_reporter_contract.2.2 "w" ⟨[], false, false⟩
    ⟨[taskFinishREQ "w" demoTask "res"], RpcOutcome.success⟩
    (taskFinishREQ "w" demoTask "res") [] rfl rfl).1

/-- Claim C6: recoverable failures never abort their loop: a `TASK_READY`
response whose task type is unknown or whose payload fails to decode is
skipped and the stream consumption continues exactly as if the message had
not occurred (so the next valid task is still enqueued), and a status
update RPC that returns a non-success status leaves the reporter loop
running and the stop event untouched. -/
theorem recoverable_failures_continue :
    (∀ (wid : String) (kt : List String) (r : EnrollREP) rest,
        r.status = EnrollStatus.TASK_READY →
        processTaskReady kt r = none →
        consumeRest wid kt (StreamEvent.rep r :: rest) = consumeRest wid kt rest) ∧
    (∀ (wid : String) (s : ReporterState) (arrivals : List UpdateStatusREQ),
        (reporterTick wid s ⟨arrivals, RpcOutcome.nonSuccess⟩).1.stopEventSet
            = s.stopEventSet ∧
          (reporterTick wid s ⟨arrivals, RpcOutcome.nonSuccess⟩).1.terminated
            = s.terminated) := by
  constructor
  · intro wid kt r rest hst hbad
    simp [consumeRest, hst, hbad]
  · intro wid s arrivals
    unfold reporterTick
    split
    · exact ⟨rfl, rfl⟩
    · cases hq : s.queue ++ arrivals with
      | nil => simp [hq]
      | cons r rest => simp [hq]

theorem recoverable_failures_continue_witness :
    consumeRest "w" ["good_type"]
        [StreamEvent.rep ⟨EnrollStatus.TASK_READY, ⟨"j", "t1", "unknown", 0, true⟩⟩,
         StreamEvent.rep ⟨EnrollStatus.TASK_READY, ⟨"j", "t2", "good_type", 0, true⟩⟩]
      = consumeRest "w" ["good_type"]
        [StreamEvent.rep ⟨EnrollStatus.TASK_READY, ⟨"j", "t2", "good_type", 0, true⟩⟩] :=
  recoverable_failures_continue.1 "w" ["good_type"]
    ⟨EnrollStatus.TASK_READY, ⟨"j", "t1", "unknown", 0, true⟩⟩
    [StreamEvent.rep ⟨EnrollStatus.TASK_READY, ⟨"j", "t2", "good_type", 0, true⟩⟩]
    rfl (by decide)

/-- Claim C7: the heartbeat (status reporter) and task-execute loops are
started when and only when the first enroll response carries
`ENROLL_SUCCESS`; in particular a first response of `ALREADY_ENROLL`, or
any other non-success status, never starts either loop. -/
theorem loops_start_only_after_enroll_success (wid : String) (kt : List String)
    (events : List StreamEvent) :
    (workerStart wid kt events).loopsStarted = true ↔
      ∃ t rest, events = StreamEvent.rep ⟨EnrollStatus.ENROLL_SUCCESS, t⟩ :: rest := by
  cases events with
  | nil => simp [workerStart]
  | cons e rest =>
      cases e with
      | transportFailure => simp [workerStart]
      | rep r =>
          obtain ⟨st, tk⟩ := r
          cases st with
          | ALREADY_ENROLL => simp [workerStart]
          | ENROLL_SUCCESS =>
              simp only [workerStart]
              constructor
              · intro _
                exact ⟨tk, rest, rfl⟩
              · intro _
                simp
          | TASK_READY => simp [workerStart]
          | other n => simp [workerStart]

/-- Claim C2 as stated is false: a duplicate-enrollment first response
makes `start()` raise a `FedvisionWorkerException` across the external
boundary, and the stop event is left unset. -/
theorem fatal_error_counterexample :
    (workerStart "w" []
        [StreamEvent.rep ⟨EnrollStatus.ALREADY_ENROLL, demoTask⟩]).raised ≠ none ∧
    (workerStart "w" []
        [StreamEvent.rep ⟨EnrollStatus.ALREADY_ENROLL, demoTask⟩]).stopEventSet
      = false := by
  constructor
  · simp [workerStart]
  · rfl

/-- Claim C2, amended: only transport failures are handled cooperatively —
an `AioRpcError` on the delivery stream or on the status-update RPC sets
the stop event without raising — while duplicate enrollment, an unexpected
enrollment status and a non-`TASK_READY` delivery status each raise a
`FedvisionWorkerException` out of `start()` and leave the stop event
unset. -/
theorem fatal_error_policy :
    (∀ (wid : String) (kt : List String) (t : WTask) rest,
        workerStart wid kt (StreamEvent.rep ⟨EnrollStatus.ALREADY_ENROLL, t⟩ :: rest)
          = ⟨false, some (.fedvisionWorker (alreadyEnrolledMsg wid)), false, []⟩) ∧
    (∀ (wid : String) (kt : List String) (first : EnrollREP) rest,
        first.status ≠ EnrollStatus.ALREADY_ENROLL →
        first.status ≠ EnrollStatus.ENROLL_SUCCESS →
        workerStart wid kt (StreamEvent.rep first :: rest)
          = ⟨false, some (.fedvisionWorker (unknownStatusMsg wid first.status)),
              false, []⟩) ∧
    (∀ (wid : String) (kt : List String) (r : EnrollREP) rest,
        r.status ≠ EnrollStatus.TASK_READY →
        consumeRest wid kt (StreamEvent.rep r :: rest)
          = ⟨[], some (.fedvisionWorker (expectTaskReadyMsg r.status)), false⟩) ∧
    (∀ (wid : String) (kt : List String) rest,
        workerStart wid kt (StreamEvent.transportFailure :: rest)
            = ⟨true, none, false, []⟩ ∧
          consumeRest wid kt (StreamEvent.transportFailure :: rest)
            = ⟨[], none, true⟩) ∧
    (∀ (wid : String) (s : ReporterState) (arrivals : List UpdateStatusREQ),
        s.terminated = false →
        (reporterTick wid s ⟨arrivals, RpcOutcome.transportFailure⟩).1.stopEventSet
            = true ∧
          (reporterTick wid s ⟨arrivals, RpcOutcome.transportFailure⟩).1.terminated
            = true) := by
  refine ⟨?_, ?_, ?_, ?_, ?_⟩
  · intro wid kt t rest
    simp [workerStart]
  · intro wid kt first rest h1 h2
    simp [workerStart, h1, h2]
  · intro wid kt r rest h
    simp [consumeRest, h]
  · intro wid kt rest
    exact ⟨rfl, rfl⟩
  · intro wid s arrivals hterm
    unfold reporterTick
    rw [hterm]
    cases hq : s.queue ++ arrivals with
    | nil => simp [hq]
    | cons r rest => simp [hq]

theorem fatal_error_policy_witness :
    workerStart "w" [] [StreamEvent.rep ⟨EnrollStatus.other 5, demoTask⟩]
      = ⟨false, some (.fedvisionWorker (unknownStatusMsg "w" (EnrollStatus.other 5))),
          false, []⟩ :=
  fatal_error_policy.2.1 "w" [] ⟨EnrollStatus.other 5, demoTask⟩ []
    (by decide) (by decide)

/-- Kinds of concurrent units alive in the worker process: the two loops
tracked in `self._asyncio_task_collection`, the `start()` coroutine that
owns the enroll stream, and the fire-and-forget task executions spawned by
`_co_task_execute_loop`. -/
inductive BgKind
  | statusReporter
  | execScheduler
  | streamHandler
  | taskExec
deriving DecidableEq, Repr

/-- An asyncio task handle: its kind, whether `task.done()` holds, and
whether `task.cancel()` has been called on it. -/
structure BgUnit where
  kind : BgKind
  done : Bool
  cancelled : Bool
deriving DecidableEq, Repr

/-- Worker state as seen by `stop()`: the channel, the collection built in
`start()` (worker.py lines 129-137), the concurrent units the collection
does not track, and the stop event. -/
structure RuntimeState where
  channelOpen : Bool
  closedCount : Nat
  asyncio_task_collection : Option (List BgUnit)
  otherUnits : List BgUnit
  stopEventSet : Bool
deriving DecidableEq, Repr

/-- The collection as populated after a successful enrollment: the
`_co_update_status` task and the `_co_task_execute_loop` task, and nothing
else. -/
def collectionAfterEnroll : List BgUnit :=
  [⟨.statusReporter, false, false⟩, ⟨.execScheduler, false, false⟩]

/-- The body of `if not task.done(): task.cancel()` (worker.py lines
186-188). -/
def cancelIfUnfinished (u : BgUnit) : BgUnit :=
  if u.done then u else { u with cancelled := true }

/-- `ClusterWorker.stop` (worker.py lines 175-189): close the channel if
it is not `None`, then cancel every not-yet-done task in
`self._asyncio_task_collection` (when the collection exists).  Nothing
else is touched: no wait on anything, no write to `self._stop_event`. -/
def workerStop (s : RuntimeState) : RuntimeState :=
  let s1 :=
    if s.channelOpen then
      { s with channelOpen := false, closedCount := s.closedCount + 1 }
    else s
  match s1.asyncio_task_collection with
  | none => s1
  | some l => { s1 with asyncio_task_collection := some (l.map cancelIfUnfinished) }

/-- `ClusterWorker.wait_for_termination` (worker.py lines 171-173) awaits
`self._stop_event.wait()`, which completes exactly when the event is
set. -/
def wait_for_termination_returns (s : RuntimeState) : Bool :=
  s.stopEventSet

theorem workerStop_fields (s : RuntimeState) :
    (workerStop s).stopEventSet = s.stopEventSet ∧
    (workerStop s).otherUnits = s.otherUnits ∧
    (workerStop s).channelOpen = false ∧
    (workerStop s).closedCount = s.closedCount + (if s.channelOpen then 1 else 0) ∧
    (workerStop s).asyncio_task_collection
      = Option.map (List.map cancelIfUnfinished) s.asyncio_task_collection := by
  by_cases hc : s.channelOpen <;>
    cases hcol : s.asyncio_task_collection <;>
      simp [workerStop, hc, hcol]

/-- Runtime state at the moment of scenario 5: stop event set by a failed
status RPC, channel still open, both collection loops alive, the stream
handler mid-suspension on the enroll stream, and one in-flight
execution. -/
def scenarioFiveState : RuntimeState :=
  { channelOpen := true
    closedCount := 0
    asyncio_task_collection := some collectionAfterEnroll
    otherUnits := [⟨.streamHandler, false, false⟩, ⟨.taskExec, false, false⟩]
    stopEventSet := true }

/-- Claim C8 as stated is false: `stop()` cancels only the tasks in
`self._asyncio_task_collection` — the status reporter and the execute
loop — while the stream-handler coroutine, not finished and mid-suspension,
is left uncancelled. -/
theorem stop_skips_stream_handler_counterexample :
    (workerStop scenarioFiveState).asyncio_task_collection
        = some [⟨.statusReporter, false, true⟩, ⟨.execScheduler, false, true⟩] ∧
    (workerStop scenarioFiveState).otherUnits
        = [⟨.streamHandler, false, false⟩, ⟨.taskExec, false, false⟩] := by
  constructor
  · rfl
  · rfl

/-- Claim C8, amended: `stop()` closes the network channel if and only if
it is open, then cancels exactly the not-yet-done tasks of
`self._asyncio_task_collection` (the status-reporter and execute loops);
concurrent units outside the collection — the stream-handler coroutine and
the in-flight task executions — are neither cancelled nor waited on, and
the stop event is untouched. -/
theorem stop_contract (s : RuntimeState) :
    (workerStop s).channelOpen = false ∧
    (workerStop s).closedCount = s.closedCount + (if s.channelOpen then 1 else 0) ∧
    (workerStop s).asyncio_task_collection
        = Option.map (List.map cancelIfUnfinished) s.asyncio_task_collection ∧
    (∀ u : BgUnit, (u.done = true → cancelIfUnfinished u = u) ∧
        (u.done = false → cancelIfUnfinished u = { u with cancelled := true })) ∧
    (workerStop s).otherUnits = s.otherUnits ∧
    (workerStop s).stopEventSet = s.stopEventSet := by
  obtain ⟨h1, h2, h3, h4, h5⟩ := workerStop_fields s
  refine ⟨h3, h4, h5, ?_, h2, h1⟩
  intro u
  constructor
  · intro hd
    simp [cancelIfUnfinished, hd]
  · intro hd
    simp [cancelIfUnfinished, hd]

theorem stop_contract_witness :
    cancelIfUnfinished ⟨BgKind.execScheduler, false, false⟩
      = ⟨BgKind.execScheduler, false, true⟩ :=
  ((stop_contract scenarioFiveState).2.2.2.1 ⟨BgKind.execScheduler, false, false⟩).2 rfl

/-- Claim C10: `stop()` never sets the stop event — any number of calls in
any state leaves it unchanged — so `wait_for_termination()` completes only
once some fatal condition has set the stop event, and a caller invoking
`stop()` without a prior fatal error can still block forever. -/
theorem stop_never_sets_stop_event (s : RuntimeState) (n : Nat) :
    (workerStop^[n] s).stopEventSet = s.stopEventSet ∧
    wait_for_termination_returns (workerStop^[n] s)
      = wait_for_termination_returns s := by
  have key : (workerStop^[n] s).stopEventSet = s.stopEventSet := by
    induction n with
    | zero => rfl
    | succ n ih =>
        rw [Function.iterate_succ_apply', (workerStop_fields (workerStop^[n] s)).1, ih]
  exact ⟨key, key⟩

/-- One `jobs` entry of `conf/extensions.yaml` as processed by
`_ExtensionLoader._load`: its `name`, its `loader` string, and the oracle
for `issubclass(job_cls, Job)` after the dynamic import. -/
structure JobEntry where
  name : String
  loader : String
  isJobSubclass : Bool
deriving DecidableEq, Repr

/-- One `tasks` entry of `conf/extensions.yaml`, with the oracle for
`issubclass(loader, Task)`. -/
structure TaskEntry where
  name : String
  loader : String
  isTaskSubclass : Bool
deriving DecidableEq, Repr

/-- The parsed content of `conf/extensions.yaml`: whether
`yaml.safe_load` succeeds, and the job and task entries of all extensions
in file order. -/
structure ExtConfig where
  parseOk : Bool
  jobs : List JobEntry
  tasks : List TaskEntry
deriving DecidableEq, Repr

/-- Class-level state of `_ExtensionLoader`: the `_job_classes` and
`_task_classes` caches (`none` models Python `None`, a mapping is an
insertion-ordered association list of name to class), and a count of the
configuration-file reads performed so far. -/
structure LoaderState where
  job_classes : Option (List (String × String))
  task_classes : Option (List (String × String))
  fileReads : Nat
deriving DecidableEq, Repr

/-- The class attributes before any lookup: all caches `None`. -/
def initLoaderState : LoaderState :=
  ⟨none, none, 0⟩

/-- `dict.get` on an insertion-ordered association list: a later insertion
of the same key overwrites an earlier one. -/
def pyDictGet : List (String × String) → String → Option String
  | [], _ => none
  | (a, b) :: rest, k =>
      match pyDictGet rest k with
      | some v => some v
      | none => if a == k then some b else none

/-- The job-loading loop of `_load` (_extensions.py lines 47-55): each
entry is imported and inserted, and a loader that is not a `Job` subclass
raises a `FedvisionExtensionException`, leaving the entries inserted so
far in place. -/
def loadJobEntries : List JobEntry → List (String × String) →
    List (String × String) × Option PyError
  | [], acc => (acc, none)
  | e :: rest, acc =>
      if e.isJobSubclass then loadJobEntries rest (acc ++ [(e.name, e.loader)])
      else (acc, some (.fedvisionExtension ("JobLoader expected, " ++ e.loader ++ " found")))

/-- The task-loading loop of `_load` (_extensions.py lines 70-78). -/
def loadTaskEntries : List TaskEntry → List (String × String) →
    List (String × String) × Option PyError
  | [], acc => (acc, none)
  | e :: rest, acc =>
      if e.isTaskSubclass then loadTaskEntries rest (acc ++ [(e.name, e.loader)])
      else (acc, some (.fedvisionExtension ("JobLoader expected, " ++ e.loader ++ " found")))

/-- `_ExtensionLoader._load` (_extensions.py lines 20-84): return
immediately when `_job_classes` is not `None`; otherwise set the caches to
empty dicts, open and parse `conf/extensions.yaml` (one file read), and
fill the caches, any failure raising out with whatever was inserted so far
left cached. -/
def extLoad (cfg : ExtConfig) (s : LoaderState) : LoaderState × Option PyError :=
  if s.job_classes.isSome then (s, none)
  else if cfg.parseOk = false then
    ({ s with
        fileReads := s.fileReads + 1
        job_classes := some []
        task_classes := some [] },
      some (.fedvisionExtension "load extension failed"))
  else
    match (loadJobEntries cfg.jobs []).2 with
    | some err =>
        ({ s with
            fileReads := s.fileReads + 1
            job_classes := some (loadJobEntries cfg.jobs []).1
            task_classes := some [] },
          some err)
    | none =>
        ({ s with
            fileReads := s.fileReads + 1
            job_classes := some (loadJobEntries cfg.jobs []).1
            task_classes := some (loadTaskEntries cfg.tasks []).1 },
          (loadTaskEntries cfg.tasks []).2)

/-- `_ExtensionLoader.get_task_class` (_extensions.py lines 127-129):
`cls._load()._task_classes.get(name)` — load on demand, then a plain
`dict.get`; an exception from `_load` propagates.  Returns the lookup
result, the updated class state, and the escaped exception if any. -/
def get_task_class (cfg : ExtConfig) (s : LoaderState) (name : String) :
    Option String × LoaderState × Option PyError :=
  match extLoad cfg s with
  | (s1, some e) => (none, s1, some e)
  | (s1, none) => (pyDictGet (s1.task_classes.getD []) name, s1, none)

/-- `_ExtensionLoader.get_job_class` (_extensions.py lines 123-125). -/
def get_job_class (cfg : ExtConfig) (s : LoaderState) (name : String) :
    Option String × LoaderState × Option PyError :=
  match extLoad cfg s with
  | (s1, some e) => (none, s1, some e)
  | (s1, none) => (pyDictGet (s1.job_classes.getD []) name, s1, none)

/-- A registry lookup through the module-level helpers. -/
inductive LookupCall
  | taskClass (name : String)
  | jobClass (name : String)
deriving DecidableEq, Repr

/-- The class state after one lookup call. -/
def doLookup (cfg : ExtConfig) (s : LoaderState) : LookupCall → LoaderState
  | .taskClass n => (get_task_class cfg s n).2.1
  | .jobClass n => (get_job_class cfg s n).2.1

/-- The class state after a sequence of lookup calls. -/
def runLookups (cfg : ExtConfig) (s : LoaderState) : List LookupCall → LoaderState
  | [] => s
  | c :: rest => runLookups cfg (doLookup cfg s c) rest

/-- A configuration on which `_load` succeeds: the yaml parses and every
loader passes its subclass check. -/
def wellFormed (cfg : ExtConfig) : Bool :=
  cfg.parseOk && cfg.jobs.all (·.isJobSubclass) && cfg.tasks.all (·.isTaskSubclass)

/-- The task mapping `_load` builds from a well-formed configuration. -/
def taskRegistry (cfg : ExtConfig) : List (String × String) :=
  cfg.tasks.map (fun e => (e.name, e.loader))

theorem extLoad_cached (cfg : ExtConfig) (s : LoaderState)
    (h : s.job_classes.isSome = true) :
    extLoad cfg s = (s, none) := by
  simp [extLoad, h]

theorem extLoad_loaded (cfg : ExtConfig) (s : LoaderState) :
    ((extLoad cfg s).1).job_classes.isSome = true := by
  unfold extLoad
  split
  · assumption
  · split
    · simp
    · split <;> simp

theorem extLoad_fileReads (cfg : ExtConfig) (s : LoaderState) :
    ((extLoad cfg s).1).fileReads
      = s.fileReads + (if s.job_classes.isSome then 0 else 1) := by
  unfold extLoad
  split
  · rename_i h
    simp [h]
  · rename_i h
    rw [Bool.not_eq_true] at h
    split
    · simp [h]
    · split <;> simp [h]

theorem doLookup_state (cfg : ExtConfig) (s : LoaderState) (c : LookupCall) :
    doLookup cfg s c = (extLoad cfg s).1 := by
  rcases h : extLoad cfg s with ⟨s1, err⟩
  cases c <;> cases err <;> simp [doLookup, get_task_class, get_job_class, h]

theorem doLookup_cached (cfg : ExtConfig) (s : LoaderState) (c : LookupCall)
    (h : s.job_classes.isSome = true) :
    doLookup cfg s c = s := by
  rw [doLookup_state, extLoad_cached cfg s h]

theorem runLookups_stable (cfg : ExtConfig) (calls : List LookupCall) :
    ∀ s : LoaderState, s.job_classes.isSome = true → runLookups cfg s calls = s := by
  induction calls with
  | nil => intro s _; rfl
  | cons c rest ih =>
      intro s h
      simp only [runLookups]
      rw [doLookup_cached cfg s c h]
      exact ih s h

theorem runLookups_reads (cfg : ExtConfig) (calls : List LookupCall) :
    (runLookups cfg initLoaderState calls).fileReads = min calls.length 1 := by
  cases calls with
  | nil => rfl
  | cons c rest =>
      have hS := extLoad_loaded cfg initLoaderState
      have hR := extLoad_fileReads cfg initLoaderState
      simp only [runLookups, doLookup_state]
      rw [runLookups_stable cfg rest _ hS, hR]
      simp only [initLoaderState, Option.isSome_none, List.length_cons]
      simp

theorem loadJobEntries_ok (entries : List JobEntry) :
    ∀ acc, entries.all (·.isJobSubclass) = true →
    loadJobEntries entries acc
      = (acc ++ entries.map (fun e => (e.name, e.loader)), none) := by
  induction entries with
  | nil => intro acc _; simp [loadJobEntries]
  | cons e rest ih =>
      intro acc h
      simp only [List.all_cons, Bool.and_eq_true] at h
      simp only [loadJobEntries, h.1, if_true]
      rw [ih _ h.2]
      simp

theorem loadTaskEntries_ok (entries : List TaskEntry) :
    ∀ acc, entries.all (·.isTaskSubclass) = true →
    loadTaskEntries entries acc
      = (acc ++ entries.map (fun e => (e.name, e.loader)), none) := by
  induction entries with
  | nil => intro acc _; simp [loadTaskEntries]
  | cons e rest ih =>
      intro acc h
      simp only [List.all_cons, Bool.and_eq_true] at h
      simp only [loadTaskEntries, h.1, if_true]
      rw [ih _ h.2]
      simp

theorem extLoad_wellFormed (cfg : ExtConfig) (s : LoaderState)
    (hw : wellFormed cfg = true) (hs : s.job_classes = none) :
    extLoad cfg s
      = ({ s with
            job_classes := some (cfg.jobs.map (fun e => (e.name, e.loader)))
            task_classes := some (taskRegistry cfg)
            fileReads := s.fileReads + 1 }, none) := by
  unfold wellFormed at hw
  simp only [Bool.and_eq_true] at hw
  obtain ⟨⟨hp, hj⟩, ht⟩ := hw
  unfold extLoad
  rw [hs]
  simp only [Option.isSome_none, Bool.false_eq_true, if_false, hp]
  rw [loadJobEntries_ok cfg.jobs [] hj, loadTaskEntries_ok cfg.tasks [] ht]
  simp [taskRegistry]

theorem pyDictGet_isSome_iff (m : List (String × String)) (k : String) :
    (pyDictGet m k).isSome = true ↔ k ∈ m.map Prod.fst := by
  induction m with
  | nil => simp [pyDictGet]
  | cons p rest ih =>
      obtain ⟨a, b⟩ := p
      simp only [List.map_cons, List.mem_cons]
      rcases h : pyDictGet rest k with _ | v
      · rw [h] at ih
        simp only [Option.isSome_none, Bool.false_eq_true, false_iff] at ih
        simp only [pyDictGet, h]
        by_cases hak : a == k
        · rw [beq_iff_eq] at hak
          simp [hak]
        · have hak2 : ¬(k = a) := by
            intro hk
            exact hak (by simp [hk])
          simp [hak, hak2, ih]
      · rw [h] at ih
        simp only [Option.isSome_some, true_iff] at ih
        simp only [pyDictGet, h, Option.isSome_some, true_iff]
        exact Or.inr ih

/-- Claim C9: the extension registry performs a lazy, cached, one-time
load — the configuration file is read exactly once over any non-empty
sequence of lookups starting from the unloaded class state and never
again, subsequent lookups are answered from the cached mapping with the
state unchanged — and on a well-formed configuration `get_task_class`
returns the registered loader for a known name and `None` for an unknown
name, raising nothing. -/
theorem extension_registry_contract :
    (∀ (cfg : ExtConfig) (calls : List LookupCall),
        (runLookups cfg initLoaderState calls).fileReads = min calls.length 1) ∧
    (∀ (cfg : ExtConfig) (s : LoaderState) (name : String),
        s.job_classes.isSome = true →
        get_task_class cfg s name
          = (pyDictGet (s.task_classes.getD []) name, s, none)) ∧
    (∀ (cfg : ExtConfig) (s : LoaderState) (name : String),
        wellFormed cfg = true → s.job_classes = none →
        (get_task_class cfg s name).2.2 = none ∧
        (get_task_class cfg s name).1 = pyDictGet (taskRegistry cfg) name) ∧
    (∀ (cfg : ExtConfig) (name : String),
        (pyDictGet (taskRegistry cfg) name).isSome = true ↔
          name ∈ cfg.tasks.map TaskEntry.name) := by
  refine ⟨runLookups_reads, ?_, ?_, ?_⟩
  · intro cfg s name h
    unfold get_task_class
    rw [extLoad_cached cfg s h]
  · intro cfg s name hw hs
    unfold get_task_class
    rw [extLoad_wellFormed cfg s hw hs]
    simp
  · intro cfg name
    rw [pyDictGet_isSome_iff]
    have : (taskRegistry cfg).map Prod.fst = cfg.tasks.map TaskEntry.name := by
      simp [taskRegistry]
    rw [this]

/-- Demonstration configuration: one task extension, no jobs. -/
def demoCfg : ExtConfig :=
  ⟨true, [], [⟨"mnist", "fedvision_ext:MnistTask", true⟩]⟩

theorem extension_registry_contract_witness :
    (get_task_class demoCfg initLoaderState "mnist").2.2 = none ∧
    (get_task_class demoCfg initLoaderState "mnist").1
      = pyDictGet (taskRegistry demoCfg) "mnist" :=
  extension_registry_contract.2.2.1 demoCfg initLoaderState "mnist" (by decide) rfl
